import Mathlib

/-!
Verification of the FocusForge statistics engine.

The development shallowly embeds the TypeScript sources:
  * `src/utils/storage.ts` (`getDateKey`, `getStats`, `saveStats`, `getSettings`,
    `saveSettings`, `DEFAULT_STATS`, `DEFAULT_SETTINGS`, `generateMockHistory`);
  * the `App` component (`completeSession`, the daily-goal increment/decrement
    controls);
  * the `UserStats` / `AppSettings` records from `types.ts`.

JavaScript `Date` values are modelled as integer milliseconds since the Unix
epoch.  The local-time accessors (`getFullYear`, `getMonth`, `getDate`) are
modelled by the ECMA-262 §21.4 day/month/date algorithms (`DayFromYear`,
`YearFromTime`, `MonthFromTime`, `DateFromTime`) applied at a fixed local
time-zone offset `tz` (in ms), which is carried as an explicit parameter.
JavaScript numbers appearing in the records are integers throughout the
program, and are modelled as `Int`.
-/

namespace FocusForge

/-! ### ECMA-262 time model -/

def msPerDay : Int := 86400000

/-- `Day(LocalTime(t))`: the local calendar-day number of instant `t` under
time-zone offset `tz`.  `Int` division is Euclidean, which coincides with
`Math.floor` division for the positive divisor `msPerDay`. -/
def localDay (tz t : Int) : Int := (t + tz) / msPerDay

/-- ECMA-262 `DayFromYear(y)`: the day number of 1 January of year `y`. -/
def dayFromYear (y : Int) : Int :=
  365 * (y - 1970) + (y - 1969) / 4 - (y - 1901) / 100 + (y - 1601) / 400

/-- ECMA-262 `DaysInYear(y)`. -/
def daysInYear (y : Int) : Int :=
  if y % 4 ≠ 0 then 365
  else if y % 100 ≠ 0 then 366
  else if y % 400 ≠ 0 then 365
  else 366

/-- Fuel-driven upward search for the year containing day `d`
(used to realise ECMA-262 `YearFromTime`). -/
def searchYearUp : Nat → Int → Int → Int
  | 0, _, y => y
  | fuel + 1, d, y => if dayFromYear (y + 1) ≤ d then searchYearUp fuel d (y + 1) else y

/-- Fuel-driven downward search for the year containing day `d`. -/
def searchYearDown : Nat → Int → Int → Int
  | 0, _, y => y
  | fuel + 1, d, y => if d < dayFromYear y then searchYearDown fuel d (y - 1) else y

/-- ECMA-262 `YearFromTime`, on day numbers: the unique `y` with
`DayFromYear(y) ≤ d < DayFromYear(y+1)`. -/
def yearFromDay (d : Int) : Int :=
  if d < dayFromYear 1970 then searchYearDown (dayFromYear 1970 - d).toNat d 1969
  else searchYearUp (d - dayFromYear 1970).toNat d 1970

/-- ECMA-262 `DayWithinYear`, on day numbers. -/
def dayWithinYear (d : Int) : Int := d - dayFromYear (yearFromDay d)

/-- ECMA-262 `InLeapYear` (0 or 1). -/
def inLeapYear (y : Int) : Int := daysInYear y - 365

/-- ECMA-262 `MonthFromTime` (0-based month), from `InLeapYear` and
`DayWithinYear`. -/
def monthFromDayInYear (ilp dwy : Int) : Int :=
  if dwy < 31 then 0
  else if dwy < 59 + ilp then 1
  else if dwy < 90 + ilp then 2
  else if dwy < 120 + ilp then 3
  else if dwy < 151 + ilp then 4
  else if dwy < 181 + ilp then 5
  else if dwy < 212 + ilp then 6
  else if dwy < 243 + ilp then 7
  else if dwy < 273 + ilp then 8
  else if dwy < 304 + ilp then 9
  else if dwy < 334 + ilp then 10
  else 11

/-- ECMA-262 `DateFromTime` (1-based day of month), from `InLeapYear` and
`DayWithinYear`. -/
def dateFromDayInYear (ilp dwy : Int) : Int :=
  if dwy < 31 then dwy + 1
  else if dwy < 59 + ilp then dwy - 30
  else if dwy < 90 + ilp then dwy - 58 - ilp
  else if dwy < 120 + ilp then dwy - 89 - ilp
  else if dwy < 151 + ilp then dwy - 119 - ilp
  else if dwy < 181 + ilp then dwy - 150 - ilp
  else if dwy < 212 + ilp then dwy - 180 - ilp
  else if dwy < 243 + ilp then dwy - 211 - ilp
  else if dwy < 273 + ilp then dwy - 242 - ilp
  else if dwy < 304 + ilp then dwy - 272 - ilp
  else if dwy < 334 + ilp then dwy - 303 - ilp
  else dwy - 333 - ilp

/-- First day-within-year of a (0-based) month; left inverse data for
`monthFromDayInYear` / `dateFromDayInYear`. -/
def firstDayOfMonth (ilp m : Int) : Int :=
  if m = 0 then 0
  else if m = 1 then 31
  else if m = 2 then 59 + ilp
  else if m = 3 then 90 + ilp
  else if m = 4 then 120 + ilp
  else if m = 5 then 151 + ilp
  else if m = 6 then 181 + ilp
  else if m = 7 then 212 + ilp
  else if m = 8 then 243 + ilp
  else if m = 9 then 273 + ilp
  else if m = 10 then 304 + ilp
  else 334 + ilp

/-- The JS `Date.prototype.getFullYear` accessor at offset `tz`. -/
def jsGetFullYear (tz t : Int) : Int := yearFromDay (localDay tz t)

/-- The JS `Date.prototype.getMonth` accessor (0-based) at offset `tz`. -/
def jsGetMonth (tz t : Int) : Int :=
  monthFromDayInYear (inLeapYear (yearFromDay (localDay tz t)))
    (dayWithinYear (localDay tz t))

/-- The JS `Date.prototype.getDate` accessor (1-based) at offset `tz`. -/
def jsGetDate (tz t : Int) : Int :=
  dateFromDayInYear (inLeapYear (yearFromDay (localDay tz t)))
    (dayWithinYear (localDay tz t))

/-! ### Correctness of the year search -/

theorem dayFromYear_succ (y : Int) :
    dayFromYear (y + 1) = dayFromYear y + daysInYear y := by
  simp only [dayFromYear, daysInYear]
  split
  · omega
  · split
    · omega
    · split <;> omega

theorem daysInYear_bounds (y : Int) : 365 ≤ daysInYear y ∧ daysInYear y ≤ 366 := by
  simp only [daysInYear]
  split
  · omega
  · split
    · omega
    · split <;> omega

theorem dayFromYear_strictMono : StrictMono dayFromYear := by
  apply strictMono_int_of_lt_succ
  intro y
  have h1 := dayFromYear_succ y
  have h2 := daysInYear_bounds y
  omega

theorem searchYearUp_correct (d : Int) :
    ∀ (fuel : Nat) (y : Int), dayFromYear y ≤ d → d - dayFromYear y < 365 * fuel + 1 →
      dayFromYear (searchYearUp fuel d y) ≤ d ∧ d < dayFromYear (searchYearUp fuel d y + 1) := by
  intro fuel
  induction fuel with
  | zero =>
    intro y h1 h2
    have h3 := dayFromYear_succ y
    have h4 := daysInYear_bounds y
    simp only [searchYearUp]
    omega
  | succ n ih =>
    intro y h1 h2
    simp only [searchYearUp]
    split
    · rename_i hg
      have h3 := dayFromYear_succ y
      have h4 := daysInYear_bounds y
      exact ih (y + 1) hg (by omega)
    · rename_i hg
      omega

theorem searchYearDown_correct (d : Int) :
    ∀ (fuel : Nat) (y : Int), d < dayFromYear (y + 1) → dayFromYear (y + 1) - d - 1 < 365 * fuel + 1 →
      dayFromYear (searchYearDown fuel d y) ≤ d ∧
        d < dayFromYear (searchYearDown fuel d y + 1) := by
  intro fuel
  induction fuel with
  | zero =>
    intro y h1 h2
    have h3 := dayFromYear_succ y
    have h4 := daysInYear_bounds y
    simp only [searchYearDown]
    omega
  | succ n ih =>
    intro y h1 h2
    simp only [searchYearDown]
    split
    · rename_i hg
      have h3 := dayFromYear_succ y
      have h4 := daysInYear_bounds y
      have h5 := dayFromYear_succ (y - 1)
      have h6 := daysInYear_bounds (y - 1)
      have e2 : dayFromYear (y - 1 + 1) = dayFromYear y := by
        have e : y - 1 + 1 = y := by ring
        rw [e]
      refine ih (y - 1) (by omega) (by omega)
    · rename_i hg
      omega

theorem yearFromDay_mem (d : Int) :
    dayFromYear (yearFromDay d) ≤ d ∧ d < dayFromYear (yearFromDay d + 1) := by
  unfold yearFromDay
  split
  · rename_i h
    have e : (1969 : Int) + 1 = 1970 := by norm_num
    refine searchYearDown_correct d _ 1969 (by rw [e]; exact h) ?_
    rw [e]
    have hn : (0 : Int) ≤ dayFromYear 1970 - d := by omega
    rw [Int.toNat_of_nonneg hn]
    omega
  · rename_i h
    push_neg at h
    refine searchYearUp_correct d _ 1970 h ?_
    have hn : (0 : Int) ≤ d - dayFromYear 1970 := by omega
    rw [Int.toNat_of_nonneg hn]
    omega

theorem yearFromDay_eq_iff (d y : Int) :
    yearFromDay d = y ↔ dayFromYear y ≤ d ∧ d < dayFromYear (y + 1) := by
  constructor
  · rintro rfl
    exact yearFromDay_mem d
  · rintro ⟨h1, h2⟩
    have hm := yearFromDay_mem d
    by_contra hne
    rcases lt_or_gt_of_ne hne with hlt | hgt
    · have : yearFromDay d + 1 ≤ y := by omega
      have := dayFromYear_strictMono.monotone this
      omega
    · have : y + 1 ≤ yearFromDay d := by omega
      have := dayFromYear_strictMono.monotone this
      omega

theorem dayWithinYear_bounds (d : Int) :
    0 ≤ dayWithinYear d ∧ dayWithinYear d < 365 + inLeapYear (yearFromDay d) := by
  have hm := yearFromDay_mem d
  have hs := dayFromYear_succ (yearFromDay d)
  have hb := daysInYear_bounds (yearFromDay d)
  simp only [dayWithinYear, inLeapYear]
  omega

set_option maxRecDepth 8000 in
theorem monthDate_recover_nat : ∀ a : Nat, a < 2 → ∀ b : Nat, b < 366 →
    ((b : Int) < 365 + (a : Int) →
    firstDayOfMonth (a : Int) (monthFromDayInYear (a : Int) (b : Int)) +
        dateFromDayInYear (a : Int) (b : Int) - 1 = (b : Int) ∧
      0 ≤ monthFromDayInYear (a : Int) (b : Int) ∧
      monthFromDayInYear (a : Int) (b : Int) ≤ 11 ∧
      1 ≤ dateFromDayInYear (a : Int) (b : Int) ∧
      dateFromDayInYear (a : Int) (b : Int) ≤ 31) := by decide

/-- On the day-within-year range, `firstDayOfMonth` together with
`dateFromDayInYear` is a left inverse of the month/date extraction, and the
extracted month and date lie in the calendar ranges. -/
theorem monthDate_recover (ilp dwy : Int) (h0 : 0 ≤ ilp) (h1 : ilp ≤ 1)
    (h2 : 0 ≤ dwy) (h3 : dwy < 365 + ilp) :
    firstDayOfMonth ilp (monthFromDayInYear ilp dwy) + dateFromDayInYear ilp dwy - 1 = dwy ∧
      0 ≤ monthFromDayInYear ilp dwy ∧ monthFromDayInYear ilp dwy ≤ 11 ∧
      1 ≤ dateFromDayInYear ilp dwy ∧ dateFromDayInYear ilp dwy ≤ 31 := by
  have ha : ((ilp.toNat : Int)) = ilp := Int.toNat_of_nonneg h0
  have hb : ((dwy.toNat : Int)) = dwy := Int.toNat_of_nonneg h2
  have h1' : ilp.toNat < 2 := by omega
  have h2' : dwy.toNat < 366 := by omega
  have := monthDate_recover_nat ilp.toNat h1' dwy.toNat h2' (by rw [ha, hb]; exact h3)
  rw [ha, hb] at this
  exact this

/-! ### Decimal number-to-string conversion (JS `String(n)` / template literals)

`natDigitsF` is fuel-driven so that it is structurally recursive and reduces
in the kernel; `natDigits n` calls it with sufficient fuel. -/

def natDigitsF : Nat → Nat → List Char
  | 0, _ => []
  | fuel + 1, n =>
    if n < 10 then [Nat.digitChar n]
    else natDigitsF fuel (n / 10) ++ [Nat.digitChar (n % 10)]

def natDigits (n : Nat) : List Char := natDigitsF (n + 1) n

/-- JS decimal string of a nonnegative integer. -/
def natToStr (n : Nat) : String := ⟨natDigits n⟩

/-- JS `String(i)` / `` `${i}` `` for an integral number. -/
def intToStr (i : Int) : String :=
  if i < 0 then ⟨'-' :: natDigits (-i).toNat⟩ else ⟨natDigits i.toNat⟩

/-- JS `String.prototype.padStart(2, '0')`. -/
def padStart2 (s : String) : String :=
  if s.length < 2 then ⟨List.replicate (2 - s.length) '0' ++ s.data⟩ else s

theorem natDigitsF_fuel_irrel : ∀ (f g n : Nat), n < f → n < g →
    natDigitsF f n = natDigitsF g n := by
  intro f
  induction f with
  | zero => intro g n h _; omega
  | succ f ih =>
    intro g n hf hg
    cases g with
    | zero => omega
    | succ g =>
      simp only [natDigitsF]
      split
      · rfl
      · rename_i hn
        have hd : n / 10 < n := Nat.div_lt_self (by omega) (by omega)
        rw [ih g (n / 10) (by omega) (by omega)]

theorem natDigits_unfold (n : Nat) :
    natDigits n = if n < 10 then [Nat.digitChar n]
      else natDigits (n / 10) ++ [Nat.digitChar (n % 10)] := by
  show natDigitsF (n + 1) n = _
  simp only [natDigitsF]
  split
  · rfl
  · rename_i hn
    have hd : n / 10 < n := Nat.div_lt_self (by omega) (by omega)
    rw [natDigitsF_fuel_irrel n (n / 10 + 1) (n / 10) (by omega) (by omega)]
    rfl

theorem natDigits_ne_nil (n : Nat) : natDigits n ≠ [] := by
  rw [natDigits_unfold]
  split
  · simp
  · simp

theorem digitChar_inj_lt : ∀ a : Nat, a < 10 → ∀ b : Nat, b < 10 →
    Nat.digitChar a = Nat.digitChar b → a = b := by decide

theorem digitChar_ne_dash : ∀ a : Nat, a < 10 → Nat.digitChar a ≠ '-' := by decide

theorem natDigits_head_digit (n : Nat) :
    ∃ k : Nat, k < 10 ∧ (natDigits n).head? = some (Nat.digitChar k) := by
  induction n using Nat.strong_induction_on with
  | _ n ih =>
    rw [natDigits_unfold]
    split
    · rename_i h
      exact ⟨n, h, rfl⟩
    · rename_i h
      have hd : n / 10 < n := Nat.div_lt_self (by omega) (by omega)
      obtain ⟨k, hk, hh⟩ := ih (n / 10) hd
      obtain ⟨a, t, he⟩ := List.exists_cons_of_ne_nil (natDigits_ne_nil (n / 10))
      rw [he] at hh ⊢
      simp only [List.head?] at hh
      have ha : a = Nat.digitChar k := by injection hh
      exact ⟨k, hk, by simp [ha]⟩

theorem natDigits_inj : ∀ m : Nat, ∀ n : Nat, natDigits m = natDigits n → m = n := by
  intro m
  induction m using Nat.strong_induction_on with
  | _ m ih =>
    intro n h
    rw [natDigits_unfold m, natDigits_unfold n] at h
    by_cases hm : m < 10 <;> by_cases hn : n < 10
    · rw [if_pos hm, if_pos hn] at h
      exact digitChar_inj_lt m hm n hn (by injection h)
    · rw [if_pos hm, if_neg hn] at h
      have := congrArg List.length h
      obtain ⟨a, t, he⟩ := List.exists_cons_of_ne_nil (natDigits_ne_nil (n / 10))
      rw [he] at this
      simp at this
    · rw [if_neg hm, if_pos hn] at h
      have := congrArg List.length h
      obtain ⟨a, t, he⟩ := List.exists_cons_of_ne_nil (natDigits_ne_nil (m / 10))
      rw [he] at this
      simp at this
    · rw [if_neg hm, if_neg hn] at h
      obtain ⟨h1, h2⟩ := List.append_inj' h (by simp)
      have hd : m / 10 < m := Nat.div_lt_self (by omega) (by omega)
      have hq : m / 10 = n / 10 := ih (m / 10) hd (n / 10) h1
      have hr : m % 10 = n % 10 :=
        digitChar_inj_lt _ (Nat.mod_lt _ (by omega)) _ (Nat.mod_lt _ (by omega))
          (by injection h2)
      omega

theorem intToStr_nonneg (i : Int) (h : 0 ≤ i) : intToStr i = natToStr i.toNat := by
  simp only [intToStr, natToStr]
  rw [if_neg (by omega)]

theorem intToStr_inj : ∀ i j : Int, intToStr i = intToStr j → i = j := by
  intro i j h
  simp only [intToStr] at h
  by_cases hi : i < 0 <;> by_cases hj : j < 0
  · rw [if_pos hi, if_pos hj] at h
    have hd : natDigits (-i).toNat = natDigits (-j).toNat := by
      have := congrArg String.data h
      simpa using this
    have := natDigits_inj _ _ hd
    omega
  · rw [if_pos hi, if_neg hj] at h
    obtain ⟨k, hk, hh⟩ := natDigits_head_digit j.toNat
    have hd := congrArg String.data h
    simp only at hd
    rw [← hd] at hh
    simp only [List.head?] at hh
    exact absurd (by injection hh) (Ne.symm (digitChar_ne_dash k hk))
  · rw [if_neg hi, if_pos hj] at h
    obtain ⟨k, hk, hh⟩ := natDigits_head_digit i.toNat
    have hd := congrArg String.data h
    simp only at hd
    rw [hd] at hh
    simp only [List.head?] at hh
    exact absurd (by injection hh) (Ne.symm (digitChar_ne_dash k hk))
  · rw [if_neg hi, if_neg hj] at h
    have hd : natDigits i.toNat = natDigits j.toNat := by
      have := congrArg String.data h
      simpa using this
    have := natDigits_inj _ _ hd
    omega

theorem pad2_natToStr_len : ∀ n : Nat, n < 100 → (padStart2 (natToStr n)).length = 2 := by
  decide

theorem pad2_natToStr_inj : ∀ a : Nat, a < 32 → ∀ b : Nat, b < 32 →
    padStart2 (natToStr a) = padStart2 (natToStr b) → a = b := by decide

/-! ### `getDateKey` (storage.ts, lines 10–15) -/

/-- `getDateKey(date)`: `` `${year}-${month}-${day}` `` with
`year = date.getFullYear()`, `month = String(date.getMonth() + 1).padStart(2,'0')`,
`day = String(date.getDate()).padStart(2,'0')`, at time-zone offset `tz`. -/
def getDateKey (tz t : Int) : String :=
  intToStr (jsGetFullYear tz t) ++ "-" ++ padStart2 (intToStr (jsGetMonth tz t + 1))
    ++ "-" ++ padStart2 (intToStr (jsGetDate tz t))

/-- The date key as a function of the local calendar-day number alone. -/
def dayKeyOfDay (n : Int) : String :=
  intToStr (yearFromDay n)
    ++ "-" ++ padStart2 (intToStr (monthFromDayInYear (inLeapYear (yearFromDay n)) (dayWithinYear n) + 1))
    ++ "-" ++ padStart2 (intToStr (dateFromDayInYear (inLeapYear (yearFromDay n)) (dayWithinYear n)))

theorem getDateKey_eq_dayKey (tz t : Int) : getDateKey tz t = dayKeyOfDay (localDay tz t) := rfl

theorem inLeapYear_bounds (y : Int) : 0 ≤ inLeapYear y ∧ inLeapYear y ≤ 1 := by
  have := daysInYear_bounds y
  simp only [inLeapYear]
  omega

theorem key_components_split (a1 a2 b1 b2 c1 c2 : String)
    (hb1 : b1.length = 2) (hb2 : b2.length = 2)
    (hc1 : c1.length = 2) (hc2 : c2.length = 2)
    (h : a1 ++ "-" ++ b1 ++ "-" ++ c1 = a2 ++ "-" ++ b2 ++ "-" ++ c2) :
    a1 = a2 ∧ b1 = b2 ∧ c1 = c2 := by
  have hbl1 : b1.data.length = 2 := hb1
  have hbl2 : b2.data.length = 2 := hb2
  have hcl1 : c1.data.length = 2 := hc1
  have hcl2 : c2.data.length = 2 := hc2
  have hd := congrArg String.data h
  simp only [String.data_append, List.append_assoc] at hd
  obtain ⟨ha, hrest⟩ := List.append_inj' hd (by simp [hbl1, hbl2, hcl1, hcl2])
  have hrest' : b1.data ++ '-' :: c1.data = b2.data ++ '-' :: c2.data := by
    injection hrest
  obtain ⟨hb, hc'⟩ := List.append_inj hrest' (by rw [hbl1, hbl2])
  have hc : c1.data = c2.data := by injection hc'
  refine ⟨?_, ?_, ?_⟩
  · show a1 = a2
    have : (⟨a1.data⟩ : String) = ⟨a2.data⟩ := congrArg String.mk ha
    simpa using this
  · have : (⟨b1.data⟩ : String) = ⟨b2.data⟩ := congrArg String.mk hb
    simpa using this
  · have : (⟨c1.data⟩ : String) = ⟨c2.data⟩ := congrArg String.mk hc
    simpa using this

theorem dayKeyOfDay_inj (n1 n2 : Int) (h : dayKeyOfDay n1 = dayKeyOfDay n2) : n1 = n2 := by
  have hi1 := inLeapYear_bounds (yearFromDay n1)
  have hi2 := inLeapYear_bounds (yearFromDay n2)
  have hw1 := dayWithinYear_bounds n1
  have hw2 := dayWithinYear_bounds n2
  have hr1 := monthDate_recover (inLeapYear (yearFromDay n1)) (dayWithinYear n1)
    hi1.1 hi1.2 hw1.1 hw1.2
  have hr2 := monthDate_recover (inLeapYear (yearFromDay n2)) (dayWithinYear n2)
    hi2.1 hi2.2 hw2.1 hw2.2
  obtain ⟨he1, hm1l, hm1u, hd1l, hd1u⟩ := hr1
  obtain ⟨he2, hm2l, hm2u, hd2l, hd2u⟩ := hr2
  set m1 := monthFromDayInYear (inLeapYear (yearFromDay n1)) (dayWithinYear n1) with hm1
  set m2 := monthFromDayInYear (inLeapYear (yearFromDay n2)) (dayWithinYear n2) with hm2
  set e1 := dateFromDayInYear (inLeapYear (yearFromDay n1)) (dayWithinYear n1) with he1'
  set e2 := dateFromDayInYear (inLeapYear (yearFromDay n2)) (dayWithinYear n2) with he2'
  have hmn1 : intToStr (m1 + 1) = natToStr (m1 + 1).toNat := intToStr_nonneg _ (by omega)
  have hmn2 : intToStr (m2 + 1) = natToStr (m2 + 1).toNat := intToStr_nonneg _ (by omega)
  have hen1 : intToStr e1 = natToStr e1.toNat := intToStr_nonneg _ (by omega)
  have hen2 : intToStr e2 = natToStr e2.toNat := intToStr_nonneg _ (by omega)
  simp only [dayKeyOfDay, ← hm1, ← hm2, ← he1', ← he2'] at h
  rw [hmn1, hmn2, hen1, hen2] at h
  obtain ⟨hy, hm, he⟩ := key_components_split _ _ _ _ _ _
    (pad2_natToStr_len _ (by omega)) (pad2_natToStr_len _ (by omega))
    (pad2_natToStr_len _ (by omega)) (pad2_natToStr_len _ (by omega)) h
  have hyy : yearFromDay n1 = yearFromDay n2 := intToStr_inj _ _ hy
  have hmm : m1 = m2 := by
    have := pad2_natToStr_inj _ (by omega) _ (by omega) hm
    omega
  have hee : e1 = e2 := by
    have := pad2_natToStr_inj _ (by omega) _ (by omega) he
    omega
  have hilp : inLeapYear (yearFromDay n1) = inLeapYear (yearFromDay n2) := by rw [hyy]
  have hfd : firstDayOfMonth (inLeapYear (yearFromDay n1)) m1
      = firstDayOfMonth (inLeapYear (yearFromDay n2)) m2 := by rw [hilp, hmm]
  have hdfy : dayFromYear (yearFromDay n1) = dayFromYear (yearFromDay n2) := by rw [hyy]
  simp only [dayWithinYear] at he1 he2
  omega

/-- The central property of `getDateKey`: two instants receive the same key
precisely when they fall on the same local calendar day. -/
theorem getDateKey_eq_iff (tz t1 t2 : Int) :
    getDateKey tz t1 = getDateKey tz t2 ↔ localDay tz t1 = localDay tz t2 := by
  rw [getDateKey_eq_dayKey, getDateKey_eq_dayKey]
  constructor
  · exact dayKeyOfDay_inj _ _
  · intro h
    rw [h]

/-! ### Data model (types.ts)

`lastUpdate` and `weekStartDate` are ISO strings in the source, produced by
`toISOString()` and read back with `new Date(string)`; this round trip is
the identity on the underlying millisecond timestamp, so both fields are
modelled as `Int` timestamps.  `history` is a JS object with string keys; it
is modelled as an insertion-ordered association list, matching JS property
order for non-index keys.  A parsed legacy record whose `history` field is
absent is modelled with `history = []`: the code (storage.ts line 71) treats
a missing and an empty `history` identically. -/

inductive AmbientSoundType
  | rain
  | cafe
  | white
deriving DecidableEq

structure UserStats where
  todaySessions : Int
  weekSessions : Int
  dailyGoal : Int
  lastUpdate : Int
  weekStartDate : Int
  totalMinutesToday : Int
  totalMinutesWeek : Int
  longestStreak : Int
  currentStreak : Int
  history : List (String × Int)
deriving DecidableEq

structure AppSettings where
  darkMode : Bool
  ambientSound : Bool
  ambientSoundType : AmbientSoundType
  ambientVolume : Rat
  focusDuration : Int
  breakDuration : Int
deriving DecidableEq

/-- JS object property assignment `h[k] = v`: overwrite in place if the key
exists, otherwise append (JS insertion order). -/
def objSet (h : List (String × Int)) (k : String) (v : Int) : List (String × Int) :=
  match h with
  | [] => [(k, v)]
  | (k', v') :: t => if k' = k then (k, v) :: t else (k', v') :: objSet t k v

/-- JS `Object.values` (insertion order). -/
def objValues (h : List (String × Int)) : List Int := h.map Prod.snd

/-- JS `a || b` on numbers (`0` and `undefined` are falsy; an out-of-range
index read yields `undefined`, modelled by `List.getD _ _ 0`). -/
def jsOrNum (a b : Int) : Int := if a = 0 then b else a

/-! ### Statistics store (storage.ts) -/

/-- The `mockCounts` array from `generateMockHistory`. -/
def mockCounts : List Int := [5, 2, 6, 3, 4, 1, 7, 3, 2, 5]

/-- `generateMockHistory()` (storage.ts lines 17–30), with `new Date()` taken
at instant `now`: for `i = 1..10`, sets `history[getDateKey(today - i days)]`
to `mockCounts[i-1] || 2`.  (`d.setDate(today.getDate() - i)` shifts the
instant by exactly `i` civil days under a fixed offset.)  The loop index `i`
here runs over `0..9`, standing for the source's `i - 1`. -/
def generateMockHistory (tz now : Int) : List (String × Int) :=
  (List.range 10).foldl
    (fun h (i : Nat) => objSet h (getDateKey tz (now - ((i : Int) + 1) * msPerDay))
      (jsOrNum (mockCounts.getD i 0) 2)) []

/-- `DEFAULT_STATS` (storage.ts lines 32–49), with the module-initialization
instant `new Date()` taken as `init`. -/
def DEFAULT_STATS (init tz : Int) : UserStats :=
  let mockHistory := generateMockHistory tz init
  let sessionsToday : Int := 3
  let sessionsPast6Days := ((objValues mockHistory).take 6).sum
  let totalWeekSessions := sessionsToday + sessionsPast6Days
  { todaySessions := sessionsToday
    weekSessions := totalWeekSessions
    dailyGoal := 4
    lastUpdate := init
    weekStartDate := init - 4 * 24 * 60 * 60 * 1000
    totalMinutesToday := sessionsToday * 25
    totalMinutesWeek := totalWeekSessions * 25
    longestStreak := 12
    currentStreak := 5
    history := mockHistory }

/-- The stored stats blob as seen by `getStats`: `localStorage.getItem`
returning `null` (`absent`), a string `JSON.parse` throws on (`corrupt`), or
a string parsing to a `UserStats` record (`ok`). -/
inductive StatsBlob
  | absent
  | corrupt
  | ok (s : UserStats)
deriving DecidableEq

/-- The migration step of `getStats` (storage.ts lines 70–77): a parsed
record with missing/empty `history` gets a fresh mock history,
`currentStreak = 5` and `longestStreak = Math.max(longestStreak, 12)`. -/
def migrateStats (now tz : Int) (s : UserStats) : UserStats :=
  if s.history = [] then
    { s with history := generateMockHistory tz now
             currentStreak := 5
             longestStreak := max s.longestStreak 12 }
  else s

/-- `Math.ceil(a / b)` for integer `a` and positive integer `b`. -/
def jsCeilDiv (a b : Int) : Int := -(-a / b)

/-- The daily reset and streak logic of `getStats` (storage.ts lines 84–113). -/
def dailyRollover (now tz : Int) (s : UserStats) : UserStats :=
  if getDateKey tz now = getDateKey tz s.lastUpdate then s
  else
    let hist := objSet s.history (getDateKey tz s.lastUpdate) s.todaySessions
    let diffDays := jsCeilDiv |now - s.lastUpdate| msPerDay
    let cs :=
      if diffDays ≤ 1 then
        if s.todaySessions > 0 then s.currentStreak + 1 else s.currentStreak
      else 0
    let ls := if cs > s.longestStreak then cs else s.longestStreak
    { s with history := hist
             currentStreak := cs
             longestStreak := ls
             todaySessions := 0
             totalMinutesToday := 0
             lastUpdate := now }

/-- The weekly reset of `getStats` (storage.ts lines 115–123):
`Math.floor((now - weekStartDate) / msPerDay) ≥ 7`. -/
def weeklyRollover (now : Int) (s : UserStats) : UserStats :=
  if (now - s.weekStartDate) / msPerDay ≥ 7 then
    { s with weekSessions := 0
             totalMinutesWeek := 0
             weekStartDate := now }
  else s

/-- `getStats()` (storage.ts lines 60–126).  The absent- and corrupt-blob
branches both fall back to `DEFAULT_STATS` (for corrupt data the
`JSON.parse` exception is caught at line 78, so no error escapes), a parsed
record is migrated first, and then the daily and weekly rollovers run.
`init` is the module-initialization instant baked into `DEFAULT_STATS`,
`now` the instant of the call. -/
def getStats (blob : StatsBlob) (init now tz : Int) : UserStats :=
  let stats :=
    match blob with
    | .absent => DEFAULT_STATS init tz
    | .corrupt => DEFAULT_STATS init tz
    | .ok s => migrateStats now tz s
  weeklyRollover now (dailyRollover now tz stats)

/-! ### Settings store (storage.ts lines 51–58 and 132–139) -/

/-- A parsed settings blob: any subset of the fields may be present
(`{ ...DEFAULT_SETTINGS, ...JSON.parse(stored) }` merges over defaults). -/
structure PartialSettings where
  darkMode : Option Bool
  ambientSound : Option Bool
  ambientSoundType : Option AmbientSoundType
  ambientVolume : Option Rat
  focusDuration : Option Int
  breakDuration : Option Int
deriving DecidableEq

def DEFAULT_SETTINGS : AppSettings :=
  { darkMode := false
    ambientSound := false
    ambientSoundType := .rain
    ambientVolume := 1 / 2
    focusDuration := 25
    breakDuration := 5 }

inductive SettingsBlob
  | absent
  | corrupt
  | ok (p : PartialSettings)
deriving DecidableEq

/-- A JS exception escaping to the caller. -/
inductive JsError
  | parseError
deriving DecidableEq

/-- Spread merge `{ ...d, ...p }`. -/
def mergeSettings (d : AppSettings) (p : PartialSettings) : AppSettings :=
  { darkMode := p.darkMode.getD d.darkMode
    ambientSound := p.ambientSound.getD d.ambientSound
    ambientSoundType := p.ambientSoundType.getD d.ambientSoundType
    ambientVolume := p.ambientVolume.getD d.ambientVolume
    focusDuration := p.focusDuration.getD d.focusDuration
    breakDuration := p.breakDuration.getD d.breakDuration }

/-- `getSettings()` (storage.ts lines 132–135):
`stored ? { ...DEFAULT_SETTINGS, ...JSON.parse(stored) } : DEFAULT_SETTINGS`.
There is no `try`/`catch` here, so a `JSON.parse` failure propagates to the
caller as a thrown error. -/
def getSettings : SettingsBlob → Except JsError AppSettings
  | .absent => .ok DEFAULT_SETTINGS
  | .corrupt => .error .parseError
  | .ok p => .ok (mergeSettings DEFAULT_SETTINGS p)

/-! ### App component operations (App.tsx) -/

/-- The stats update performed by `completeSession` (App.tsx lines 441–459)
when `mode === 'focus'`, with `minutesCompleted = settings.focusDuration`
and `new Date()` taken at instant `now`.  (Completing a `break` session
leaves the stats untouched.) -/
def completeSession (s : UserStats) (minutesCompleted now : Int) : UserStats :=
  { s with todaySessions := s.todaySessions + 1
           weekSessions := s.weekSessions + 1
           totalMinutesToday := s.totalMinutesToday + minutesCompleted
           totalMinutesWeek := s.totalMinutesWeek + minutesCompleted
           lastUpdate := now }

/-- The daily-goal decrement control (App.tsx line 508):
`{ ...s, dailyGoal: Math.max(1, s.dailyGoal - 1) }`. -/
def decrementGoal (s : UserStats) : UserStats :=
  { s with dailyGoal := max 1 (s.dailyGoal - 1) }

/-- The daily-goal increment control (App.tsx line 510):
`{ ...s, dailyGoal: s.dailyGoal + 1 }`. -/
def incrementGoal (s : UserStats) : UserStats :=
  { s with dailyGoal := s.dailyGoal + 1 }

/-! ### Helper lemmas about the model -/

theorem localDay_sub_days (tz t m : Int) :
    localDay tz (t - m * msPerDay) = localDay tz t - m := by
  simp only [localDay, msPerDay]
  have e : t - m * 86400000 + tz = t + tz + -m * 86400000 := by ring
  rw [e, Int.add_mul_ediv_right _ _ (by norm_num : (86400000 : Int) ≠ 0)]
  ring

theorem getDateKey_shift_ne (tz now : Int) {i j : Int} (hij : i ≠ j) :
    getDateKey tz (now - i * msPerDay) ≠ getDateKey tz (now - j * msPerDay) := by
  rw [Ne, getDateKey_eq_iff, localDay_sub_days, localDay_sub_days]
  omega

theorem objSet_of_fresh (k : String) (v : Int) :
    ∀ h : List (String × Int), (∀ p ∈ h, p.1 ≠ k) → objSet h k v = h ++ [(k, v)] := by
  intro h
  induction h with
  | nil => intro _; rfl
  | cons p t ih =>
    intro hf
    obtain ⟨k', v'⟩ := p
    simp only [objSet]
    rw [if_neg (hf (k', v') (by simp))]
    rw [ih (fun q hq => hf q (by simp [hq]))]
    simp

theorem objSet_length_ge (k : String) (v : Int) :
    ∀ h : List (String × Int), h.length ≤ (objSet h k v).length := by
  intro h
  induction h with
  | nil => simp [objSet]
  | cons p t ih =>
    obtain ⟨k', v'⟩ := p
    simp only [objSet]
    split
    · simp
    · simp only [List.length_cons]
      omega

/-- The `i`-th entry written by `generateMockHistory` (with `i = 0..9`
standing for the source's `i - 1`). -/
def mockEntry (tz now : Int) (i : Nat) : String × Int :=
  (getDateKey tz (now - ((i : Int) + 1) * msPerDay), jsOrNum (mockCounts.getD i 0) 2)

theorem foldl_objSet_mock (tz now : Int) :
    ∀ (l : List Nat) (h : List (String × Int)),
      (∀ i ∈ l, ∀ p ∈ h, p.1 ≠ (mockEntry tz now i).1) →
      l.Pairwise (fun i j => (mockEntry tz now i).1 ≠ (mockEntry tz now j).1) →
      l.foldl
        (fun h (i : Nat) => objSet h (getDateKey tz (now - ((i : Int) + 1) * msPerDay))
          (jsOrNum (mockCounts.getD i 0) 2)) h
      = h ++ l.map (mockEntry tz now) := by
  intro l
  induction l with
  | nil => intro h _ _; simp
  | cons i l ih =>
    intro h hfresh hpw
    simp only [List.foldl_cons, List.map_cons]
    have hstep : objSet h (getDateKey tz (now - ((i : Int) + 1) * msPerDay))
        (jsOrNum (mockCounts.getD i 0) 2) = h ++ [mockEntry tz now i] :=
      objSet_of_fresh _ _ h (fun p hp => hfresh i (by simp) p hp)
    rw [hstep, ih (h ++ [mockEntry tz now i]) ?_ (List.Pairwise.of_cons hpw)]
    · simp
    · intro j hj p hp
      rcases List.mem_append.1 hp with hph | hpe
      · exact hfresh j (by simp [hj]) p hph
      · have : p = mockEntry tz now i := by simpa using hpe
        rw [this]
        exact (List.pairwise_cons.1 hpw).1 j hj

theorem mockEntry_keys_pairwise (tz now : Int) :
    (List.range 10).Pairwise (fun i j => (mockEntry tz now i).1 ≠ (mockEntry tz now j).1) := by
  refine List.Pairwise.imp ?_ (List.pairwise_lt_range 10)
  intro i j hij
  exact getDateKey_shift_ne tz now (by omega)

theorem generateMockHistory_eq (tz now : Int) :
    generateMockHistory tz now = (List.range 10).map (mockEntry tz now) := by
  have := foldl_objSet_mock tz now (List.range 10) [] (by simp)
    (mockEntry_keys_pairwise tz now)
  simpa [generateMockHistory] using this

theorem generateMockHistory_length (tz now : Int) :
    (generateMockHistory tz now).length = 10 := by
  rw [generateMockHistory_eq]
  simp

theorem generateMockHistory_ne_nil (tz now : Int) :
    generateMockHistory tz now ≠ [] := by
  intro h
  have := congrArg List.length h
  rw [generateMockHistory_length] at this
  simp at this

theorem generateMockHistory_values (tz now : Int) :
    objValues (generateMockHistory tz now) = [5, 2, 6, 3, 4, 1, 7, 3, 2, 5] := by
  rw [generateMockHistory_eq]
  rfl

theorem DEFAULT_STATS_eq (init tz : Int) :
    DEFAULT_STATS init tz =
      { todaySessions := 3
        weekSessions := 24
        dailyGoal := 4
        lastUpdate := init
        weekStartDate := init - 345600000
        totalMinutesToday := 75
        totalMinutesWeek := 600
        longestStreak := 12
        currentStreak := 5
        history := (List.range 10).map (mockEntry tz init) } := by
  simp only [DEFAULT_STATS]
  rw [generateMockHistory_values, generateMockHistory_eq]
  norm_num

/-! ### Preservation lemmas for the rollover pipeline -/

theorem migrateStats_counters (now tz : Int) (s : UserStats) :
    (migrateStats now tz s).todaySessions = s.todaySessions ∧
    (migrateStats now tz s).weekSessions = s.weekSessions ∧
    (migrateStats now tz s).dailyGoal = s.dailyGoal ∧
    (migrateStats now tz s).lastUpdate = s.lastUpdate ∧
    (migrateStats now tz s).weekStartDate = s.weekStartDate ∧
    (migrateStats now tz s).totalMinutesToday = s.totalMinutesToday ∧
    (migrateStats now tz s).totalMinutesWeek = s.totalMinutesWeek := by
  simp only [migrateStats]
  split <;> exact ⟨rfl, rfl, rfl, rfl, rfl, rfl, rfl⟩

theorem migrateStats_id_of_ne (now tz : Int) (s : UserStats) (h : s.history ≠ []) :
    migrateStats now tz s = s := by
  simp only [migrateStats]
  rw [if_neg h]

theorem migrateStats_history_ne_nil (now tz : Int) (s : UserStats) :
    (migrateStats now tz s).history ≠ [] := by
  intro he
  by_cases h : s.history = []
  · rw [migrateStats, if_pos h] at he
    simp only at he
    exact generateMockHistory_ne_nil tz now he
  · rw [migrateStats_id_of_ne now tz s h] at he
    exact h he

theorem migrateStats_streak_inv (now tz : Int) (s : UserStats)
    (h : s.currentStreak ≤ s.longestStreak) :
    (migrateStats now tz s).currentStreak ≤ (migrateStats now tz s).longestStreak := by
  simp only [migrateStats]
  split
  · simp only
    omega
  · exact h

theorem dailyRollover_week_fields (now tz : Int) (u : UserStats) :
    (dailyRollover now tz u).weekSessions = u.weekSessions ∧
    (dailyRollover now tz u).totalMinutesWeek = u.totalMinutesWeek ∧
    (dailyRollover now tz u).weekStartDate = u.weekStartDate ∧
    (dailyRollover now tz u).dailyGoal = u.dailyGoal := by
  simp only [dailyRollover]
  split <;> exact ⟨rfl, rfl, rfl, rfl⟩

theorem dailyRollover_history_length (now tz : Int) (u : UserStats) :
    u.history.length ≤ (dailyRollover now tz u).history.length := by
  simp only [dailyRollover]
  split
  · exact le_refl _
  · exact objSet_length_ge _ _ u.history

theorem dailyRollover_longestStreak_mono (now tz : Int) (u : UserStats) :
    u.longestStreak ≤ (dailyRollover now tz u).longestStreak := by
  simp only [dailyRollover]
  split
  · exact le_refl _
  · simp only
    split <;> omega

theorem dailyRollover_streak_inv (now tz : Int) (u : UserStats)
    (h : u.currentStreak ≤ u.longestStreak) :
    (dailyRollover now tz u).currentStreak ≤ (dailyRollover now tz u).longestStreak := by
  simp only [dailyRollover]
  split
  · exact h
  · simp only
    split <;> omega

theorem dailyRollover_lastUpdate_key (now tz : Int) (u : UserStats) :
    getDateKey tz (dailyRollover now tz u).lastUpdate = getDateKey tz now := by
  simp only [dailyRollover]
  split
  · rename_i h
    exact h.symm
  · rfl

theorem dailyRollover_history_ne_nil (now tz : Int) (u : UserStats)
    (h : u.history ≠ []) : (dailyRollover now tz u).history ≠ [] := by
  intro he
  have h1 := dailyRollover_history_length now tz u
  rw [he] at h1
  simp at h1
  exact h h1

theorem weeklyRollover_eq (now : Int) (v : UserStats) :
    weeklyRollover now v =
      { v with
        weekSessions := if (now - v.weekStartDate) / msPerDay ≥ 7 then 0 else v.weekSessions
        totalMinutesWeek :=
          if (now - v.weekStartDate) / msPerDay ≥ 7 then 0 else v.totalMinutesWeek
        weekStartDate :=
          if (now - v.weekStartDate) / msPerDay ≥ 7 then now else v.weekStartDate } := by
  simp only [weeklyRollover]
  split <;> rfl

theorem weeklyRollover_daily_fields (now : Int) (v : UserStats) :
    (weeklyRollover now v).todaySessions = v.todaySessions ∧
    (weeklyRollover now v).totalMinutesToday = v.totalMinutesToday ∧
    (weeklyRollover now v).dailyGoal = v.dailyGoal ∧
    (weeklyRollover now v).lastUpdate = v.lastUpdate ∧
    (weeklyRollover now v).currentStreak = v.currentStreak ∧
    (weeklyRollover now v).longestStreak = v.longestStreak ∧
    (weeklyRollover now v).history = v.history := by
  simp only [weeklyRollover]
  split <;> exact ⟨rfl, rfl, rfl, rfl, rfl, rfl, rfl⟩

theorem weeklyRollover_weekStart_lt (now : Int) (v : UserStats) :
    (now - (weeklyRollover now v).weekStartDate) / msPerDay < 7 := by
  simp only [weeklyRollover]
  split
  · simp only
    simp [msPerDay]
  · rename_i h
    omega

/-! ### Claim C10: goal-adjustment controls -/

/-- **C10.** The goal-adjustment controls preserve `dailyGoal ≥ 1`: for every
record with `dailyGoal ≥ 1`, the decrement control sets `dailyGoal` to
`max 1 (dailyGoal - 1)` (never below 1), the increment control sets it to
`dailyGoal + 1`, and both leave every other field of the record unchanged. -/
theorem C10_goal_controls (s : UserStats) (h : 1 ≤ s.dailyGoal) :
    (decrementGoal s).dailyGoal = max 1 (s.dailyGoal - 1) ∧
    1 ≤ (decrementGoal s).dailyGoal ∧
    (incrementGoal s).dailyGoal = s.dailyGoal + 1 ∧
    1 ≤ (incrementGoal s).dailyGoal ∧
    decrementGoal s = { s with dailyGoal := (decrementGoal s).dailyGoal } ∧
    incrementGoal s = { s with dailyGoal := (incrementGoal s).dailyGoal } := by
  refine ⟨rfl, ?_, rfl, ?_, rfl, rfl⟩
  · simp only [decrementGoal]
    omega
  · simp only [incrementGoal]
    omega

/-- A sample in-range statistics record. -/
def sampleRecC10 : UserStats :=
  { todaySessions := 2
    weekSessions := 5
    dailyGoal := 1
    lastUpdate := 0
    weekStartDate := 0
    totalMinutesToday := 50
    totalMinutesWeek := 125
    longestStreak := 5
    currentStreak := 3
    history := [("1969-12-31", 2)] }

/-- Witness for C10 at a concrete record with `dailyGoal = 1`. -/
theorem C10_goal_controls_witness :
    1 ≤ (decrementGoal sampleRecC10).dailyGoal ∧
    (incrementGoal sampleRecC10).dailyGoal = 2 :=
  ⟨(C10_goal_controls sampleRecC10 (by decide)).2.1,
   (C10_goal_controls sampleRecC10 (by decide)).2.2.1⟩

/-! ### Claim C7: recording a completed focus session -/

theorem foldl_completeSession_counts (calls : List (Int × Int)) :
    ∀ s : UserStats,
      (calls.foldl (fun st c => completeSession st c.1 c.2) s).todaySessions
          = s.todaySessions + calls.length ∧
        (calls.foldl (fun st c => completeSession st c.1 c.2) s).totalMinutesToday
          = s.totalMinutesToday + (calls.map Prod.fst).sum := by
  induction calls with
  | nil => intro s; simp
  | cons c t ih =>
    intro s
    simp only [List.foldl_cons, List.map_cons, List.sum_cons, List.length_cons]
    obtain ⟨h1, h2⟩ := ih (completeSession s c.1 c.2)
    rw [h1, h2]
    simp only [completeSession]
    constructor <;> push_cast <;> ring

/-- **C7.** `completeSession` in focus mode increments `todaySessions` and
`weekSessions` by exactly 1, adds the completed minutes to
`totalMinutesToday` and `totalMinutesWeek`, sets `lastUpdate` to the current
time and leaves the other fields alone; consequently a sequence of such
calls starting from a rolled-over record (zero daily counters) leaves
`todaySessions` equal to the number of calls and `totalMinutesToday` equal
to the sum of the minutes arguments.  (The counters do not depend on the
call instants, so this holds in particular for calls within one local day.) -/
theorem C7_recordSession :
    (∀ (s : UserStats) (m now : Int),
      completeSession s m now =
        { s with todaySessions := s.todaySessions + 1
                 weekSessions := s.weekSessions + 1
                 totalMinutesToday := s.totalMinutesToday + m
                 totalMinutesWeek := s.totalMinutesWeek + m
                 lastUpdate := now }) ∧
    (∀ (s : UserStats) (calls : List (Int × Int)),
      s.todaySessions = 0 → s.totalMinutesToday = 0 →
      (calls.foldl (fun st c => completeSession st c.1 c.2) s).todaySessions = calls.length ∧
      (calls.foldl (fun st c => completeSession st c.1 c.2) s).totalMinutesToday
        = (calls.map Prod.fst).sum) := by
  refine ⟨fun s m now => rfl, fun s calls h0 h1 => ?_⟩
  obtain ⟨ha, hb⟩ := foldl_completeSession_counts calls s
  rw [ha, hb, h0, h1]
  constructor <;> ring

/-- A rolled-over record (daily counters zero). -/
def sampleRecC7 : UserStats :=
  { todaySessions := 0
    weekSessions := 5
    dailyGoal := 4
    lastUpdate := 0
    weekStartDate := 0
    totalMinutesToday := 0
    totalMinutesWeek := 125
    longestStreak := 5
    currentStreak := 3
    history := [("1969-12-31", 2)] }

/-- Witness for C7: two concrete sessions of 25 and 10 minutes. -/
theorem C7_recordSession_witness :
    ([((25 : Int), (100 : Int)), (10, 200)].foldl
        (fun st c => completeSession st c.1 c.2) sampleRecC7).todaySessions = 2 ∧
    ([((25 : Int), (100 : Int)), (10, 200)].foldl
        (fun st c => completeSession st c.1 c.2) sampleRecC7).totalMinutesToday = 35 := by
  have h := C7_recordSession.2 sampleRecC7 [(25, 100), (10, 200)] (by decide) (by decide)
  exact ⟨by rw [h.1]; decide, by rw [h.2]; decide⟩

/-! ### Claim C1: the record initialized when no prior record exists -/

/-- **C1 counterexample.** The record `getStats` initializes and persists
when nothing is stored is `DEFAULT_STATS`, which is mock data: at
module-initialization instant `0` and offset `0` it has `todaySessions = 3`
(not 0), `weekSessions = 24` (not 0), `totalMinutesToday = 75` (not 0) and a
10-entry fabricated history (not an empty one), refuting the claimed zeroed
counters and empty history. -/
theorem C1_default_counterexample :
    (DEFAULT_STATS 0 0).todaySessions = 3 ∧
    (DEFAULT_STATS 0 0).weekSessions = 24 ∧
    (DEFAULT_STATS 0 0).totalMinutesToday = 75 ∧
    (DEFAULT_STATS 0 0).history.length = 10 ∧
    ¬((DEFAULT_STATS 0 0).todaySessions = 0 ∧ (DEFAULT_STATS 0 0).history = []) := by
  refine ⟨?_, ?_, ?_, ?_, ?_⟩ <;>
    simp only [DEFAULT_STATS_eq] <;> decide

/-- **C1 (amended).** When no prior record exists, `getStats` initializes and
persists the `DEFAULT_STATS` mock record: `dailyGoal = 4` as claimed, but
`todaySessions = 3`, `weekSessions = 24`, `totalMinutesToday = 75`,
`totalMinutesWeek = 600`, `currentStreak = 5`, `longestStreak = 12`,
`lastUpdate` the module-initialization instant, `weekStartDate` four days
earlier, and a fabricated 10-day non-empty history. -/
theorem C1_default_record (init tz : Int) :
    (DEFAULT_STATS init tz).todaySessions = 3 ∧
    (DEFAULT_STATS init tz).weekSessions = 24 ∧
    (DEFAULT_STATS init tz).dailyGoal = 4 ∧
    (DEFAULT_STATS init tz).totalMinutesToday = 75 ∧
    (DEFAULT_STATS init tz).totalMinutesWeek = 600 ∧
    (DEFAULT_STATS init tz).longestStreak = 12 ∧
    (DEFAULT_STATS init tz).currentStreak = 5 ∧
    (DEFAULT_STATS init tz).lastUpdate = init ∧
    (DEFAULT_STATS init tz).weekStartDate = init - 345600000 ∧
    (DEFAULT_STATS init tz).history.length = 10 ∧
    (DEFAULT_STATS init tz).history ≠ [] := by
  rw [DEFAULT_STATS_eq]
  refine ⟨rfl, rfl, rfl, rfl, rfl, rfl, rfl, rfl, rfl, by simp, by simp⟩

/-! ### Claim C4: corrupted stored data -/

/-- **C4 counterexample.** A corrupt settings blob does *not* fall back to
defaults: `getSettings` has no `try`/`catch`, so the `JSON.parse` failure
surfaces as an error to the caller. -/
theorem C4_settings_counterexample :
    getSettings SettingsBlob.corrupt = Except.error JsError.parseError ∧
    ∀ a : AppSettings, getSettings SettingsBlob.corrupt ≠ Except.ok a := by
  exact ⟨rfl, fun a h => by simp [getSettings] at h⟩

/-- **C4 (amended).** A corrupted stats blob is silently replaced with the
default record — `getStats` treats it exactly like an absent record, and
being a total function it surfaces no error.  For settings, an absent blob
yields the defaults and a parsable blob merges over the defaults, but a
*corrupted* settings blob throws the parse error to the caller. -/
theorem C4_corrupt_fallback :
    (∀ init now tz : Int, getStats StatsBlob.corrupt init now tz
        = getStats StatsBlob.absent init now tz) ∧
    getSettings SettingsBlob.absent = Except.ok DEFAULT_SETTINGS ∧
    (∀ p : PartialSettings, getSettings (SettingsBlob.ok p)
        = Except.ok (mergeSettings DEFAULT_SETTINGS p)) ∧
    getSettings SettingsBlob.corrupt = Except.error JsError.parseError :=
  ⟨fun _ _ _ => rfl, rfl, fun _ => rfl, rfl⟩

/-! ### Claim C5: the legacy-history migration -/

/-- A legacy record with an empty history and a high current streak. -/
def legacyRecC5 : UserStats :=
  { todaySessions := 0
    weekSessions := 0
    dailyGoal := 4
    lastUpdate := 0
    weekStartDate := 0
    totalMinutesToday := 0
    totalMinutesWeek := 0
    longestStreak := 20
    currentStreak := 10
    history := [] }

/-- **C5 counterexample.** The migration sets `currentStreak` to the constant
5, which *lowers* it below the stored value: loading `legacyRecC5`
(`currentStreak = 10`, empty history) returns a record with
`currentStreak = 5 < 10`. -/
theorem C5_migration_counterexample :
    (getStats (StatsBlob.ok legacyRecC5) 0 0 0).currentStreak = 5 ∧
    (getStats (StatsBlob.ok legacyRecC5) 0 0 0).currentStreak
      < legacyRecC5.currentStreak := by
  constructor <;> decide

/-- **C5 (amended).** For a loaded record with empty/missing `history`, the
migration synthesizes a multi-day (10-entry) history, and `longestStreak`
becomes `max longestStreak 12`, which never decreases; but `currentStreak`
is set to the constant 5, which *can* decrease (see the counterexample), so
only `longestStreak` is guaranteed non-decreasing. -/
theorem C5_migration_amended (s : UserStats) (init now tz : Int) (h : s.history = []) :
    10 ≤ (getStats (StatsBlob.ok s) init now tz).history.length ∧
    s.longestStreak ≤ (getStats (StatsBlob.ok s) init now tz).longestStreak ∧
    (migrateStats now tz s).currentStreak = 5 ∧
    (migrateStats now tz s).longestStreak = max s.longestStreak 12 := by
  have hm_cs : (migrateStats now tz s).currentStreak = 5 := by
    rw [migrateStats, if_pos h]
  have hm_ls : (migrateStats now tz s).longestStreak = max s.longestStreak 12 := by
    rw [migrateStats, if_pos h]
  have hm_hist : (migrateStats now tz s).history = generateMockHistory tz now := by
    rw [migrateStats, if_pos h]
  have hg : getStats (StatsBlob.ok s) init now tz
      = weeklyRollover now (dailyRollover now tz (migrateStats now tz s)) := rfl
  have hwf := weeklyRollover_daily_fields now (dailyRollover now tz (migrateStats now tz s))
  refine ⟨?_, ?_, hm_cs, hm_ls⟩
  · rw [hg, hwf.2.2.2.2.2.2]
    have h10 : (migrateStats now tz s).history.length = 10 := by
      rw [hm_hist, generateMockHistory_length]
    have := dailyRollover_history_length now tz (migrateStats now tz s)
    omega
  · rw [hg, hwf.2.2.2.2.2.1]
    have h1 : s.longestStreak ≤ (migrateStats now tz s).longestStreak := by
      rw [hm_ls]
      exact le_max_left _ _
    have h2 := dailyRollover_longestStreak_mono now tz (migrateStats now tz s)
    omega

/-- Witness for the amended C5 at the concrete legacy record. -/
theorem C5_migration_amended_witness :
    10 ≤ (getStats (StatsBlob.ok legacyRecC5) 0 0 0).history.length ∧
    legacyRecC5.longestStreak ≤ (getStats (StatsBlob.ok legacyRecC5) 0 0 0).longestStreak :=
  ⟨(C5_migration_amended legacyRecC5 0 0 0 (by decide)).1,
   (C5_migration_amended legacyRecC5 0 0 0 (by decide)).2.1⟩

/-! ### Claim C6: the weekly reset -/

/-- **C6.** On every load of a stored record, the weekly reset fires exactly
when at least 7 whole days (`7 * msPerDay` milliseconds) have elapsed from
the record's `weekStartDate` to `now`; when it fires, `weekSessions` and
`totalMinutesWeek` become 0 and `weekStartDate` becomes `now`; otherwise the
three fields are returned unchanged. -/
theorem C6_weekly_reset (s : UserStats) (init now tz : Int) :
    (getStats (StatsBlob.ok s) init now tz).weekSessions
        = (if 7 * msPerDay ≤ now - s.weekStartDate then 0 else s.weekSessions) ∧
    (getStats (StatsBlob.ok s) init now tz).totalMinutesWeek
        = (if 7 * msPerDay ≤ now - s.weekStartDate then 0 else s.totalMinutesWeek) ∧
    (getStats (StatsBlob.ok s) init now tz).weekStartDate
        = (if 7 * msPerDay ≤ now - s.weekStartDate then now else s.weekStartDate) := by
  have hg : getStats (StatsBlob.ok s) init now tz
      = weeklyRollover now (dailyRollover now tz (migrateStats now tz s)) := rfl
  have hm := migrateStats_counters now tz s
  have hd := dailyRollover_week_fields now tz (migrateStats now tz s)
  have hws : (dailyRollover now tz (migrateStats now tz s)).weekStartDate
      = s.weekStartDate := by rw [hd.2.2.1, hm.2.2.2.2.1]
  have hwk : (dailyRollover now tz (migrateStats now tz s)).weekSessions
      = s.weekSessions := by rw [hd.1, hm.2.1]
  have htw : (dailyRollover now tz (migrateStats now tz s)).totalMinutesWeek
      = s.totalMinutesWeek := by rw [hd.2.1, hm.2.2.2.2.2.2]
  rw [hg, weeklyRollover_eq]
  by_cases hc : 7 * msPerDay ≤ now - s.weekStartDate
  · have hc' : (now - (dailyRollover now tz (migrateStats now tz s)).weekStartDate)
        / msPerDay ≥ 7 := by
      rw [hws]
      simp only [msPerDay] at hc ⊢
      omega
    rw [if_pos hc', if_pos hc', if_pos hc', if_pos hc, if_pos hc, if_pos hc]
    exact ⟨rfl, rfl, rfl⟩
  · have hc' : ¬((now - (dailyRollover now tz (migrateStats now tz s)).weekStartDate)
        / msPerDay ≥ 7) := by
      rw [hws]
      simp only [msPerDay] at hc ⊢
      omega
    rw [if_neg hc', if_neg hc', if_neg hc', if_neg hc, if_neg hc, if_neg hc]
    exact ⟨hwk, htw, hws⟩

/-! ### Claim C8: `currentStreak ≤ longestStreak` is an invariant -/

theorem pipeline_streak_inv (now tz : Int) (u : UserStats)
    (h : u.currentStreak ≤ u.longestStreak) :
    (weeklyRollover now (dailyRollover now tz u)).currentStreak
      ≤ (weeklyRollover now (dailyRollover now tz u)).longestStreak := by
  have hw := weeklyRollover_daily_fields now (dailyRollover now tz u)
  rw [hw.2.2.2.2.1, hw.2.2.2.2.2.1]
  exact dailyRollover_streak_inv now tz u h

theorem DEFAULT_STATS_streak_inv (init tz : Int) :
    (DEFAULT_STATS init tz).currentStreak ≤ (DEFAULT_STATS init tz).longestStreak := by
  rw [DEFAULT_STATS_eq]
  norm_num

/-- **C8.** `currentStreak ≤ longestStreak` is an invariant: every public
statistics operation — loading a stored record (rollover, with or without
migration), loading with an absent or corrupt blob (defaults), and
`recordSession` — returns a record satisfying it whenever the input record
satisfies it. -/
theorem C8_streak_invariant :
    (∀ (s : UserStats) (init now tz : Int), s.currentStreak ≤ s.longestStreak →
      (getStats (StatsBlob.ok s) init now tz).currentStreak
        ≤ (getStats (StatsBlob.ok s) init now tz).longestStreak) ∧
    (∀ init now tz : Int,
      (getStats StatsBlob.absent init now tz).currentStreak
        ≤ (getStats StatsBlob.absent init now tz).longestStreak) ∧
    (∀ init now tz : Int,
      (getStats StatsBlob.corrupt init now tz).currentStreak
        ≤ (getStats StatsBlob.corrupt init now tz).longestStreak) ∧
    (∀ (s : UserStats) (m now : Int), s.currentStreak ≤ s.longestStreak →
      (completeSession s m now).currentStreak
        ≤ (completeSession s m now).longestStreak) := by
  refine ⟨fun s init now tz h => ?_, fun init now tz => ?_, fun init now tz => ?_,
    fun s m now h => h⟩
  · exact pipeline_streak_inv now tz (migrateStats now tz s) (migrateStats_streak_inv now tz s h)
  · exact pipeline_streak_inv now tz (DEFAULT_STATS init tz) (DEFAULT_STATS_streak_inv init tz)
  · exact pipeline_streak_inv now tz (DEFAULT_STATS init tz) (DEFAULT_STATS_streak_inv init tz)

/-- A concrete record satisfying the invariant. -/
def recC8 : UserStats :=
  { todaySessions := 1
    weekSessions := 3
    dailyGoal := 4
    lastUpdate := 90000000
    weekStartDate := 0
    totalMinutesToday := 25
    totalMinutesWeek := 75
    longestStreak := 6
    currentStreak := 4
    history := [("1970-01-01", 2)] }

/-- Witness for C8 at a concrete record and load instant. -/
theorem C8_streak_invariant_witness :
    (getStats (StatsBlob.ok recC8) 0 180000000 0).currentStreak
      ≤ (getStats (StatsBlob.ok recC8) 0 180000000 0).longestStreak :=
  C8_streak_invariant.1 recC8 0 180000000 0 (by decide)

/-! ### Claim C9: `getDateKey` -/

/-- **C9.** `getDateKey` produces the local-calendar `YYYY-MM-DD` key: the
year rendered in decimal followed by the month (`getMonth() + 1`) and day of
month, each zero-padded to two characters and in the calendar ranges
`1..12` / `1..31`; and two instants receive the same key exactly when they
fall on the same local calendar day (so keys agree within a local day and
differ across a local-midnight boundary). -/
theorem C9_getDateKey :
    (∀ tz t1 t2 : Int,
      getDateKey tz t1 = getDateKey tz t2 ↔ localDay tz t1 = localDay tz t2) ∧
    (∀ tz t : Int,
      getDateKey tz t = intToStr (jsGetFullYear tz t) ++ "-"
          ++ padStart2 (intToStr (jsGetMonth tz t + 1)) ++ "-"
          ++ padStart2 (intToStr (jsGetDate tz t)) ∧
      (padStart2 (intToStr (jsGetMonth tz t + 1))).length = 2 ∧
      (padStart2 (intToStr (jsGetDate tz t))).length = 2 ∧
      1 ≤ jsGetMonth tz t + 1 ∧ jsGetMonth tz t + 1 ≤ 12 ∧
      1 ≤ jsGetDate tz t ∧ jsGetDate tz t ≤ 31) := by
  refine ⟨getDateKey_eq_iff, fun tz t => ?_⟩
  have hi := inLeapYear_bounds (yearFromDay (localDay tz t))
  have hw := dayWithinYear_bounds (localDay tz t)
  have hr := monthDate_recover _ _ hi.1 hi.2 hw.1 hw.2
  have hm : jsGetMonth tz t
      = monthFromDayInYear (inLeapYear (yearFromDay (localDay tz t)))
        (dayWithinYear (localDay tz t)) := rfl
  have hd : jsGetDate tz t
      = dateFromDayInYear (inLeapYear (yearFromDay (localDay tz t)))
        (dayWithinYear (localDay tz t)) := rfl
  have hm1 : 1 ≤ jsGetMonth tz t + 1 := by rw [hm]; omega
  have hm2 : jsGetMonth tz t + 1 ≤ 12 := by rw [hm]; omega
  have hd1 : 1 ≤ jsGetDate tz t := by rw [hd]; omega
  have hd2 : jsGetDate tz t ≤ 31 := by rw [hd]; omega
  have hlm : (padStart2 (intToStr (jsGetMonth tz t + 1))).length = 2 := by
    rw [intToStr_nonneg _ (by omega)]
    exact pad2_natToStr_len _ (by omega)
  have hld : (padStart2 (intToStr (jsGetDate tz t))).length = 2 := by
    rw [intToStr_nonneg _ (by omega)]
    exact pad2_natToStr_len _ (by omega)
  exact ⟨rfl, hlm, hld, hm1, hm2, hd1, hd2⟩

/-- Witness for C9: two instants one hour apart on the same local day get the
same key, and an instant on the next local day gets a different key. -/
theorem C9_getDateKey_witness :
    getDateKey 0 3600000 = getDateKey 0 7200000 ∧
    getDateKey 0 3600000 ≠ getDateKey 0 90000000 :=
  ⟨(C9_getDateKey.1 0 3600000 7200000).2 (by decide),
   fun h => by
    have := (C9_getDateKey.1 0 3600000 90000000).1 h
    simp [localDay, msPerDay] at this⟩

/-! ### Claim C2: the day-gap streak rule -/

/-- A record on local day 0 (last update 23:00) with no sessions today and a
running streak of 3. -/
def recC2 : UserStats :=
  { todaySessions := 0
    weekSessions := 0
    dailyGoal := 4
    lastUpdate := 82800000
    weekStartDate := 90000000
    totalMinutesToday := 0
    totalMinutesWeek := 0
    longestStreak := 5
    currentStreak := 3
    history := [("1969-12-31", 1)] }

/-- **C2 counterexample.** Loading `recC2` (day D, `todaySessions = 0`,
`currentStreak = 3`) at 01:00 of day D+1 — only 2 hours later, so
`Math.ceil(diff / day) = 1` — leaves `currentStreak` at 3: the claimed reset
to 0 for `todaySessions = 0` on day D+1 does not happen. -/
theorem C2_daygap_counterexample :
    localDay 0 90000000 = localDay 0 recC2.lastUpdate + 1 ∧
    recC2.todaySessions = 0 ∧
    (getStats (StatsBlob.ok recC2) 0 90000000 0).currentStreak = 3 ∧
    (getStats (StatsBlob.ok recC2) 0 90000000 0).currentStreak ≠ 0 :=
  ⟨by decide, by decide, by decide, by decide⟩

theorem dailyRollover_cs_of_ne (now tz : Int) (u : UserStats)
    (hd : getDateKey tz now ≠ getDateKey tz u.lastUpdate) :
    (dailyRollover now tz u).currentStreak =
      if jsCeilDiv |now - u.lastUpdate| msPerDay ≤ 1 then
        if u.todaySessions > 0 then u.currentStreak + 1 else u.currentStreak
      else 0 := by
  rw [dailyRollover, if_neg hd]

/-- **C2 (amended).** For a stored record with a non-empty history (so the
mock-history migration, which overwrites `currentStreak`, does not fire),
the streak rule of `getStats` depends on the *elapsed time*, not only on the
calendar gap: on day D+1 with at most 24h elapsed, `currentStreak` is
incremented by exactly 1 when `todaySessions ≥ 1` and left unchanged (not
reset) when `todaySessions = 0`; on day D+1 with more than 24h elapsed it is
reset to 0 even when `todaySessions ≥ 1`; and with a calendar gap of 2 days
or more it is always reset to 0. -/
theorem C2_daygap_amended (s : UserStats) (init now tz : Int) (hne : s.history ≠ []) :
    (localDay tz now = localDay tz s.lastUpdate + 1 ∧ now - s.lastUpdate ≤ msPerDay ∧
        1 ≤ s.todaySessions →
      (getStats (StatsBlob.ok s) init now tz).currentStreak = s.currentStreak + 1) ∧
    (localDay tz now = localDay tz s.lastUpdate + 1 ∧ now - s.lastUpdate ≤ msPerDay ∧
        s.todaySessions ≤ 0 →
      (getStats (StatsBlob.ok s) init now tz).currentStreak = s.currentStreak) ∧
    (localDay tz now = localDay tz s.lastUpdate + 1 ∧ msPerDay < now - s.lastUpdate →
      (getStats (StatsBlob.ok s) init now tz).currentStreak = 0) ∧
    (localDay tz s.lastUpdate + 2 ≤ localDay tz now →
      (getStats (StatsBlob.ok s) init now tz).currentStreak = 0) := by
  have hg : getStats (StatsBlob.ok s) init now tz
      = weeklyRollover now (dailyRollover now tz s) := by
    show weeklyRollover now (dailyRollover now tz (migrateStats now tz s)) = _
    rw [migrateStats_id_of_ne now tz s hne]
  have hwcs := (weeklyRollover_daily_fields now (dailyRollover now tz s)).2.2.2.2.1
  have hkey : ∀ _h : localDay tz now ≠ localDay tz s.lastUpdate,
      getDateKey tz now ≠ getDateKey tz s.lastUpdate := fun hld he =>
    hld ((getDateKey_eq_iff tz now s.lastUpdate).1 he)
  refine ⟨fun ⟨h1, h2, h3⟩ => ?_, fun ⟨h1, h2, h3⟩ => ?_, fun ⟨h1, h2⟩ => ?_, fun h1 => ?_⟩
  · have hlt : s.lastUpdate < now := by
      simp only [localDay, msPerDay] at h1
      omega
    rw [hg, hwcs, dailyRollover_cs_of_ne now tz s (hkey (by omega)),
      abs_of_nonneg (by omega : (0 : Int) ≤ now - s.lastUpdate)]
    rw [if_pos (by simp only [jsCeilDiv, msPerDay] at *; omega), if_pos (by omega)]
  · have hlt : s.lastUpdate < now := by
      simp only [localDay, msPerDay] at h1
      omega
    rw [hg, hwcs, dailyRollover_cs_of_ne now tz s (hkey (by omega)),
      abs_of_nonneg (by omega : (0 : Int) ≤ now - s.lastUpdate)]
    rw [if_pos (by simp only [jsCeilDiv, msPerDay] at *; omega), if_neg (by omega)]
  · rw [hg, hwcs, dailyRollover_cs_of_ne now tz s (hkey (by omega)),
      abs_of_nonneg (by simp only [msPerDay] at h2; omega : (0 : Int) ≤ now - s.lastUpdate)]
    rw [if_neg (by simp only [jsCeilDiv, msPerDay] at *; omega)]
  · have hlt : msPerDay < now - s.lastUpdate := by
      simp only [localDay, msPerDay] at h1 ⊢
      omega
    rw [hg, hwcs, dailyRollover_cs_of_ne now tz s (hkey (by omega)),
      abs_of_nonneg (by simp only [msPerDay] at hlt; omega : (0 : Int) ≤ now - s.lastUpdate)]
    rw [if_neg (by simp only [jsCeilDiv, msPerDay] at *; omega)]

/-- A record on local day 0 (10:00) with one session today. -/
def recC2w : UserStats :=
  { todaySessions := 1
    weekSessions := 1
    dailyGoal := 4
    lastUpdate := 36000000
    weekStartDate := 36000000
    totalMinutesToday := 25
    totalMinutesWeek := 25
    longestStreak := 5
    currentStreak := 3
    history := [("1969-12-31", 1)] }

/-- Witness for the amended C2: loading `recC2w` at 09:00 of the next local
day (23h elapsed, `todaySessions = 1`) increments the streak to 4. -/
theorem C2_daygap_amended_witness :
    (getStats (StatsBlob.ok recC2w) 0 118800000 0).currentStreak
      = recC2w.currentStreak + 1 :=
  (C2_daygap_amended recC2w 0 118800000 0 (by decide)).1
    ⟨by decide, by decide, by decide⟩

/-! ### Claim C3: idempotence of the rollover in `load` -/

/-- **C3.** The rollover in `getStats` is idempotent.  With the store holding
the record the first call returned and persisted (after a first call the
store always holds exactly the returned record: every `saveStats` in
`getStats` writes the record that is finally returned, and on the save-free
path the stored record already equals the returned one): a second `load` in
direct succession (same instant) returns a record identical to the first
call's result; and any second `load` later on the same local day performs no
second archival into `history` and no second streak change — `history`,
`currentStreak`, `longestStreak`, `todaySessions`, `totalMinutesToday` and
`lastUpdate` are all returned unchanged. -/
theorem C3_load_idempotent (blob : StatsBlob) (init now tz : Int) :
    getStats (StatsBlob.ok (getStats blob init now tz)) init now tz
        = getStats blob init now tz ∧
      (∀ now2 : Int, localDay tz now2 = localDay tz now →
        (getStats (StatsBlob.ok (getStats blob init now tz)) init now2 tz).history
            = (getStats blob init now tz).history ∧
        (getStats (StatsBlob.ok (getStats blob init now tz)) init now2 tz).currentStreak
            = (getStats blob init now tz).currentStreak ∧
        (getStats (StatsBlob.ok (getStats blob init now tz)) init now2 tz).longestStreak
            = (getStats blob init now tz).longestStreak ∧
        (getStats (StatsBlob.ok (getStats blob init now tz)) init now2 tz).todaySessions
            = (getStats blob init now tz).todaySessions ∧
        (getStats (StatsBlob.ok (getStats blob init now tz)) init now2 tz).totalMinutesToday
            = (getStats blob init now tz).totalMinutesToday ∧
        (getStats (StatsBlob.ok (getStats blob init now tz)) init now2 tz).lastUpdate
            = (getStats blob init now tz).lastUpdate) := by
  obtain ⟨u, hu, hne⟩ : ∃ u, getStats blob init now tz
      = weeklyRollover now (dailyRollover now tz u) ∧ u.history ≠ [] := by
    cases blob with
    | absent =>
      refine ⟨DEFAULT_STATS init tz, rfl, ?_⟩
      rw [DEFAULT_STATS_eq]
      simp
    | corrupt =>
      refine ⟨DEFAULT_STATS init tz, rfl, ?_⟩
      rw [DEFAULT_STATS_eq]
      simp
    | ok s => exact ⟨migrateStats now tz s, rfl, migrateStats_history_ne_nil now tz s⟩
  have hwf := weeklyRollover_daily_fields now (dailyRollover now tz u)
  have hist_ne : (getStats blob init now tz).history ≠ [] := by
    rw [hu, hwf.2.2.2.2.2.2]
    exact dailyRollover_history_ne_nil now tz u hne
  have hlast : getDateKey tz (getStats blob init now tz).lastUpdate = getDateKey tz now := by
    rw [hu, hwf.2.2.2.1]
    exact dailyRollover_lastUpdate_key now tz u
  have hweek : (now - (getStats blob init now tz).weekStartDate) / msPerDay < 7 := by
    rw [hu]
    exact weeklyRollover_weekStart_lt now _
  constructor
  · show weeklyRollover now
        (dailyRollover now tz (migrateStats now tz (getStats blob init now tz)))
      = getStats blob init now tz
    rw [migrateStats_id_of_ne now tz _ hist_ne]
    rw [dailyRollover, if_pos hlast.symm]
    rw [weeklyRollover, if_neg (by omega)]
  · intro now2 h2
    have hkey2 : getDateKey tz now2
        = getDateKey tz (getStats blob init now tz).lastUpdate := by
      rw [hlast]
      exact (getDateKey_eq_iff tz now2 now).2 h2
    have hse : getStats (StatsBlob.ok (getStats blob init now tz)) init now2 tz
        = weeklyRollover now2 (getStats blob init now tz) := by
      show weeklyRollover now2
          (dailyRollover now2 tz (migrateStats now2 tz (getStats blob init now tz)))
        = _
      rw [migrateStats_id_of_ne now2 tz _ hist_ne]
      rw [dailyRollover, if_pos hkey2]
    rw [hse]
    have hw2 := weeklyRollover_daily_fields now2 (getStats blob init now tz)
    exact ⟨hw2.2.2.2.2.2.2, hw2.2.2.2.2.1, hw2.2.2.2.2.2.1, hw2.1, hw2.2.1, hw2.2.2.2.1⟩

/-- Witness for C3: a concrete first load with an absent store, re-loaded at
the same instant and again one hour later the same local day. -/
theorem C3_load_idempotent_witness :
    getStats (StatsBlob.ok (getStats StatsBlob.absent 0 0 0)) 0 0 0
        = getStats StatsBlob.absent 0 0 0 ∧
      (getStats (StatsBlob.ok (getStats StatsBlob.absent 0 0 0)) 0 3600000 0).history
        = (getStats StatsBlob.absent 0 0 0).history :=
  ⟨(C3_load_idempotent StatsBlob.absent 0 0 0).1,
   ((C3_load_idempotent StatsBlob.absent 0 0 0).2 3600000 (by decide)).1⟩

end FocusForge
